import Mathlib

/-!
Shallow embedding of the drone-gcloud-helm plugin (Go) and proofs about it.

The embedding covers the two variants of the plugin that the repository
keeps under `src/`:

* the current `src/plugin.go` / `src/main.go` pair (functions suffixed `Go`
  here, or unsuffixed where no clash arises), and
* the `src/unnamed/part_003` variant (functions suffixed `V3`), which is the
  variant with a `Region` field, the templated version fetch, the go-version
  semantic comparison and the sleep-10s/10-retries tiller wait loop.

External subprocesses are modelled by an oracle environment (`Env`, `EnvV3`):
for each command the oracle yields the error outcome (`none` = exit success)
and, where the Go code captures it, the produced output text.  A run of the
program is reflected as a trace of `Event`s (spawned commands, sleeps,
prints) together with a result.  Repeated invocations of the same command
inside a retry loop are indexed by attempt number through a dedicated oracle
field, so that outcomes may change over time.
-/

/-- Subprocess command: program plus argument vector (exec.Command). -/
structure Cmd where
  prog : String
  args : List String
deriving DecidableEq, Repr

/-- Observable effect of a run: a spawned child process, a sleep (seconds),
or a printed diagnostic. -/
inductive Event where
  | run (c : Cmd)
  | sleep (seconds : Nat)
  | print (s : String)
deriving DecidableEq, Repr

/-- Result of a computation that can panic (Go runtime panic), fail with an
error value, or succeed. -/
inductive Res (α : Type) where
  | panicked
  | err (e : String)
  | ok (a : α)
deriving DecidableEq, Repr

/-- Plugin configuration (src/plugin.go:17-37).  Field `nspace` stands for
the Go field `Namespace` (`namespace` is reserved in Lean). -/
structure Plugin where
  debug : Bool := false
  showEnv : Bool := false
  wait : Bool := false
  recreate : Bool := false
  waitTimeout : Nat := 300
  actions : List String := []
  authKey : String := ""
  keyPath : String := ""
  zone : String := ""
  cluster : String := ""
  project : String := ""
  nspace : String := ""
  chartRepo : String := ""
  bucket : String := ""
  chartPath : String := ""
  chartVersion : String := ""
  release : String := ""
  package : String := ""
  values : List String := []
deriving DecidableEq, Repr

/-- Oracle environment for the src/plugin.go and src/main.go code.
`runErr c` is the outcome of running command `c` once (`none` is success),
`stdout`/`stderr` the captured streams, `poll i` the outcome of the `i`-th
iteration of the `pollTiller` retry loop (the same `helm version` command
run repeatedly may change outcome over time), `tmpErr`/`tmpName` the result
of `ioutil.TempFile` plus writing/closing it, and `setenvErr` the result of
`os.Setenv`. -/
structure Env where
  runErr : Cmd → Option String
  stdout : Cmd → String
  stderr : Cmd → String
  poll : Nat → Option String
  tmpErr : Option String
  tmpName : String
  setenvErr : Option String

/-- Binary paths from src/plugin.go:40-43. -/
def gcloudBin : String := "/opt/google-cloud-sdk/bin/gcloud"

def gsutilBin : String := "/opt/google-cloud-sdk/bin/gsutil"

def helmBin : String := "/opt/google-cloud-sdk/bin/helm"

/-- Action names from src/plugin.go:45-49. -/
def lintPkg : String := "lint"

def createPkg : String := "create"

def pushPkg : String := "push"

def pullPkg : String := "pull"

def deployPkg : String := "deploy"

/-- Go map lookup with the zero value as default (`m[k]` on a missing key
yields the zero value). -/
def lookupD {α : Type} : List (String × α) → String → α → α
  | [], _, d => d
  | (k', v) :: rest, k, d => if k' = k then v else lookupD rest k d

/-- Go map assignment `m[k] = v`: replace an existing binding or append. -/
def setA {α : Type} : List (String × α) → String → α → List (String × α)
  | [], k, v => [(k, v)]
  | (k', v') :: rest, k, v =>
    if k' = k then (k, v) :: rest else (k', v') :: setA rest k v

/-- Go `strings.Split` with a single-character separator, accumulator
form: `cur` holds the reversed characters of the current field. -/
def splitOnCharAux (sep : Char) : List Char → List Char → List (List Char)
  | [], cur => [cur.reverse]
  | c :: rest, cur =>
    if c = sep then cur.reverse :: splitOnCharAux sep rest []
    else splitOnCharAux sep rest (c :: cur)

/-- Go `strings.Split(s, sep)` for a one-character separator; always yields
at least one (possibly empty) field. -/
def goSplit (s : String) (sep : Char) : List String :=
  (splitOnCharAux sep s.data []).map String.mk

/-- One named-group entry produced by the version regexp (realm, semver,
commit, treestate), i.e. one element of `FindAllStringSubmatch`. -/
structure VMatch where
  realm : String
  semver : String
  commit : String
  treestate : String
deriving DecidableEq, Repr

/-- Characters of `s` strictly before the first occurrence of `stop`,
together with the characters after it; `none` when `stop` does not occur
(the lazy group `(?P<x>.*?)"` fails to match without a closing quote). -/
def takeUntilChar (stop : Char) : List Char → Option (List Char × List Char)
  | [] => none
  | c :: rest =>
    if c = stop then some ([], rest)
    else
      match takeUntilChar stop rest with
      | none => none
      | some (pre, suf) => some (c :: pre, suf)

/-- Drop a literal from the front of the input, or fail. -/
def dropLit (lit : List Char) (s : List Char) : Option (List Char) :=
  if lit.isPrefixOf s then some (s.drop lit.length) else none

/-- Suffix after the first occurrence of the literal `lit` (the lazy gap
`.*?lit` of the regexp): scan forward for the earliest occurrence. -/
def findAfter (lit : List Char) : List Char → Option (List Char)
  | [] => if lit.isPrefixOf ([] : List Char) then some [] else none
  | c :: tl =>
    if lit.isPrefixOf (c :: tl) then some ((c :: tl).drop lit.length)
    else findAfter lit tl

/-- Consume one arbitrary character (the `.` wildcard; the input line never
contains a newline because the caller splits on newlines first). -/
def any1 : List Char → Option (List Char)
  | [] => none
  | _ :: tl => some tl

/-- Match of the version regexp (src/plugin.go:52) anchored at the start of
`s`:
`(?P<realm>Client|Server): &version.Version.SemVer:"(?P<semver>.*?)".*?GitCommit:"(?P<commit>.*?)".*?GitTreeState:"(?P<treestate>.*?)"`.
Lazy quantifiers are modelled as earliest-occurrence scans (no backtracking,
which is observationally equivalent on newline-free lines). -/
def matchAt (s : List Char) : Option (VMatch × List Char) := do
  let (realm, s1) ←
    if ("Client".data.isPrefixOf s) then some ("Client", s.drop 6)
    else if ("Server".data.isPrefixOf s) then some ("Server", s.drop 6)
    else none
  let s2 ← dropLit ": &version".data s1
  let s3 ← any1 s2
  let s4 ← dropLit "Version".data s3
  let s5 ← any1 s4
  let s6 ← dropLit "SemVer:\"".data s5
  let (sv, s7) ← takeUntilChar '"' s6
  let s8 ← findAfter "GitCommit:\"".data s7
  let (cm, s9) ← takeUntilChar '"' s8
  let s10 ← findAfter "GitTreeState:\"".data s9
  let (ts, s11) ← takeUntilChar '"' s10
  some (⟨realm, String.mk sv, String.mk cm, String.mk ts⟩, s11)

/-- Fuel-bounded scan for all non-overlapping matches, earliest first
(`FindAllStringSubmatch(str, -1)`).  The fuel is the input length plus one,
which is ample since every match consumes at least one character. -/
def findAllAux : Nat → List Char → List VMatch
  | 0, _ => []
  | _ + 1, [] => []
  | fuel + 1, c :: tl =>
    match matchAt (c :: tl) with
    | some (m, rest) => m :: findAllAux fuel rest
    | none => findAllAux fuel tl

/-- All matches of the version regexp in `s`. -/
def findAllVersions (s : List Char) : List VMatch :=
  findAllAux (s.length + 1) s

/-- Add one named group to the result map, skipping empty submatches
(`match[i] != ""` in src/plugin.go:331). -/
def addGroup (acc : List (String × String)) (name v : String) :
    List (String × String) :=
  if v = "" then acc else setA acc name v

/-- Fold one regexp match into the result map, in `SubexpNames` order. -/
def addGroups (acc : List (String × String)) (m : VMatch) :
    List (String × String) :=
  addGroup (addGroup (addGroup (addGroup acc "realm" m.realm)
    "semver" m.semver) "commit" m.commit) "treestate" m.treestate

/-- scanNamed (src/plugin.go:327-342) specialised to the version regexp:
collect all named submatches into a map; an empty result map is the
"emtpy resultset" error (sic, the typo is in the source). -/
def scanNamedVersions (str : String) : Except String (List (String × String)) :=
  let result := (findAllVersions str.data).foldl addGroups []
  if result = [] then Except.error "emtpy resultset" else Except.ok result

/-- Go `strings.ToLower` on ASCII letters. -/
def asciiLower (c : Char) : Char :=
  if 'A' ≤ c ∧ c ≤ 'Z' then Char.ofNat (c.toNat + 32) else c

/-- Lower-casing of a whole string. -/
def goToLower (s : String) : String := String.mk (s.data.map asciiLower)

/-- The loop body of fetchHelmVersions (src/plugin.go:242-248): scan each
line, abort on a scan error, and file the entry under its lower-cased
realm. -/
def scanLines : List String → List (String × List (String × String)) →
    Res (List (String × List (String × String)))
  | [], acc => Res.ok acc
  | l :: ls, acc =>
    match scanNamedVersions l with
    | Except.error e => Res.err e
    | Except.ok entry =>
      scanLines ls (setA acc (goToLower (lookupD entry "realm" "")) entry)

/-- Parsing part of fetchHelmVersions (src/plugin.go:238-250): split the
captured stdout on newlines and scan the first two lines.  Go's
`lines[:2]` reslices beyond the capacity and panics whenever the split
yields fewer than two lines. -/
def parseHelmVersionOutput (out : String) :
    Res (List (String × List (String × String))) :=
  let lines := goSplit out '\n'
  if lines.length < 2 then Res.panicked
  else scanLines (lines.take 2) []

/-- The `helm version` command. -/
def helmVersionCmd : Cmd := Cmd.mk helmBin ["version"]

/-- fetchHelmVersions (src/plugin.go:227-251): run `helm version`; a run
failure turns into an error carrying the captured stderr text; otherwise
parse the captured stdout. -/
def fetchHelmVersionsGo (env : Env) :
    List Event × Res (List (String × List (String × String))) :=
  ([Event.run helmVersionCmd],
    match env.runErr helmVersionCmd with
    | some _ => Res.err (env.stderr helmVersionCmd)
    | none => parseHelmVersionOutput (env.stdout helmVersionCmd))

/-- Nested lookup `ver[realm]["semver"]` with Go zero-value defaults. -/
def semverOf (m : List (String × List (String × String))) (realm : String) :
    String :=
  lookupD (lookupD m realm []) "semver" ""

/-- Go `strings.Compare`: lexicographic comparison; comparing code points
agrees with Go's byte-wise comparison because UTF-8 preserves code-point
order. -/
def charListCompare : List Char → List Char → Int
  | [], [] => 0
  | [], _ :: _ => -1
  | _ :: _, [] => 1
  | a :: as, b :: bs =>
    if a.toNat < b.toNat then -1
    else if b.toNat < a.toNat then 1
    else charListCompare as bs

/-- Go `strings.Compare` on strings. -/
def stringsCompare (a b : String) : Int := charListCompare a.data b.data

/-- pollTiller loop (src/plugin.go:255-263): `i` is the attempt index into
the time-indexed oracle, the middle argument the remaining iterations, the
last argument the error of the previous attempt (`var err error`). -/
def pollTillerAux (att : Nat → Option String) :
    Nat → Nat → Option String → List Event × Option String
  | _, 0, last => ([], last)
  | i, n + 1, _ =>
    match att i with
    | none => ([Event.run helmVersionCmd], none)
    | some e =>
      let (t, r) := pollTillerAux att (i + 1) n (some e)
      (Event.run helmVersionCmd :: t, r)

/-- pollTiller (src/plugin.go:255-263). -/
def pollTillerGo (env : Env) (retries : Nat) : List Event × Option String :=
  pollTillerAux env.poll 0 retries none

/-- The three init commands of src/plugin.go:274-283. -/
def plainInitCmd : Cmd := Cmd.mk helmBin ["init"]

def upgradeInitCmd : Cmd := Cmd.mk helmBin ["init", "--upgrade"]

def clientOnlyInitCmd : Cmd := Cmd.mk helmBin ["init", "--client-only"]

/-- Tail of helmInit (src/plugin.go:288-293): run the chosen init command,
report its failure, otherwise poll for tiller ten times. -/
def initThenPoll (env : Env) (t : List Event) (cmd : Cmd) :
    List Event × Res Unit :=
  match env.runErr cmd with
  | some e => (t ++ [Event.run cmd], Res.err e)
  | none =>
    let (pt, pr) := pollTillerGo env 10
    (t ++ Event.run cmd :: pt,
      match pr with
      | some e => Res.err e
      | none => Res.ok ())

/-- helmInit (src/plugin.go:267-294): fetch the versions; on a fetch error
fall through to a plain `helm init`; otherwise branch on
`strings.Compare(ver["client"]["semver"], ver["server"]["semver"])`. -/
def helmInitGo (env : Env) : List Event × Res Unit :=
  match fetchHelmVersionsGo env with
  | (t, Res.panicked) => (t, Res.panicked)
  | (t, Res.err _) => initThenPoll env t plainInitCmd
  | (t, Res.ok ver) =>
    let c := semverOf ver "client"
    let s := semverOf ver "server"
    if stringsCompare c s = -1 then (t, Res.err "helm client is out of date")
    else if stringsCompare c s = 1 then initThenPoll env t upgradeInitCmd
    else initThenPoll env t clientOnlyInitCmd

/-- Artifact file name `<package>-<version>.tgz` (the naming convention of
spec section 6; each action site below spells the same format string out,
as the Go source does). -/
def artifactName (p : Plugin) : String :=
  p.package ++ "-" ++ p.chartVersion ++ ".tgz"

/-- lintPackage (src/plugin.go:129-131). -/
def lintCmdGo (p : Plugin) : Cmd := Cmd.mk helmBin ["lint", p.chartPath]

/-- createPackage (src/plugin.go:100-102). -/
def createCmdGo (p : Plugin) : Cmd :=
  Cmd.mk helmBin ["package", "--version", p.chartVersion, p.chartPath]

/-- Source argument of pushPackage (src/plugin.go:123). -/
def pushSource (p : Plugin) : String :=
  p.package ++ "-" ++ p.chartVersion ++ ".tgz"

/-- Destination argument of pushPackage (src/plugin.go:124). -/
def pushDest (p : Plugin) : String := "gs://" ++ p.bucket

/-- pushPackage (src/plugin.go:121-126), via cpPackage (gsutil cp). -/
def pushCmdGo (p : Plugin) : Cmd :=
  Cmd.mk gsutilBin ["cp", pushSource p, pushDest p]

/-- Source argument of pullPackage (src/plugin.go:114). -/
def pullSource (p : Plugin) : String :=
  "gs://" ++ p.bucket ++ "/" ++ p.package ++ "-" ++ p.chartVersion ++ ".tgz"

/-- Destination argument of pullPackage (src/plugin.go:115). -/
def pullDest (p : Plugin) : String :=
  p.package ++ "-" ++ p.chartVersion ++ ".tgz"

/-- pullPackage (src/plugin.go:112-117), via cpPackage (gsutil cp). -/
def pullCmdGo (p : Plugin) : Cmd :=
  Cmd.mk gsutilBin ["cp", pullSource p, pullDest p]

/-- Shell command string assembled by deployPackage (src/plugin.go:134-153):
`%s upgrade %s %s-%s.tgz --set %s %s --install --namespace %s`
with the values list extended by `namespace=<ns>` first, plus the optional
`--wait --timeout <n>` suffix. -/
def deployHelmCmdStr (p : Plugin) : String :=
  let vals := p.values ++ ["namespace=" ++ p.nspace]
  let doRecreate := if p.recreate then "--recreate-pods" else ""
  let base := helmBin ++ " upgrade " ++ p.release ++ " " ++ p.package ++ "-"
    ++ p.chartVersion ++ ".tgz --set " ++ String.intercalate "," vals ++ " "
    ++ doRecreate ++ " --install --namespace " ++ p.nspace
  if p.wait then base ++ " --wait --timeout " ++ toString p.waitTimeout
  else base

/-- deployPackage (src/plugin.go:134-156): the command actually spawned. -/
def deployCmdGo (p : Plugin) : Cmd :=
  Cmd.mk "/bin/sh" ["-c", deployHelmCmdStr p]

/-- Dispatch table of the Exec action loop (src/plugin.go:68-93): each
recognized action runs exactly one command; an unrecognized name has no
command. -/
def actionCmdGo (p : Plugin) (a : String) : Option Cmd :=
  if a = lintPkg then some (lintCmdGo p)
  else if a = createPkg then some (createCmdGo p)
  else if a = pushPkg then some (pushCmdGo p)
  else if a = pullPkg then some (pullCmdGo p)
  else if a = deployPkg then some (deployCmdGo p)
  else none

/-- The action loop of Exec (src/plugin.go:68-93): iterate the action list
in order; an unknown action aborts with "unknown action"; a failing handler
aborts with that handler's error; otherwise continue. -/
def runActionsGo (run : Cmd → Option String) (p : Plugin) :
    List String → List Event × Option String
  | [] => ([], none)
  | a :: rest =>
    match actionCmdGo p a with
    | none => ([], some "unknown action")
    | some c =>
      match run c with
      | some e => ([Event.run c], some e)
      | none =>
        let (t, r) := runActionsGo run p rest
        (Event.run c :: t, r)

/-- Run a list of commands in order, stopping at the first failure
(the cmds loop of setupProject, src/plugin.go:201-211). -/
def runSeq (env : Env) : List Cmd → List Event × Option String
  | [] => ([], none)
  | c :: cs =>
    match env.runErr c with
    | some e => ([Event.run c], some e)
    | none =>
      let (t, r) := runSeq env cs
      (Event.run c :: t, r)

/-- setupProject (src/plugin.go:162-214): pick the credential file (the
inline key is materialised to a temp file when no key path is given), then
run the three gcloud commands and finally export
GOOGLE_APPLICATION_CREDENTIALS. -/
def setupProjectV1 (env : Env) (p : Plugin) : List Event × Option String :=
  let chooseFile : Except String String :=
    if p.authKey ≠ "" ∧ p.keyPath = "" then
      match env.tmpErr with
      | some e => Except.error e
      | none => Except.ok env.tmpName
    else Except.ok p.keyPath
  match chooseFile with
  | Except.error e => ([], some e)
  | Except.ok authFile =>
    let cmds :=
      [Cmd.mk gcloudBin
        ["auth", "activate-service-account", "--key-file=" ++ authFile],
       Cmd.mk gcloudBin ["config", "set", "project", p.project],
       Cmd.mk gcloudBin
        ["container", "clusters", "get-credentials", p.cluster,
         "--zone", p.zone]]
    match runSeq env cmds with
    | (t, some e) => (t, some e)
    | (t, none) => (t, env.setenvErr)

/-- Lift the loop result of runActionsGo into `Res`. -/
def toRes : Option String → Res Unit
  | some e => Res.err e
  | none => Res.ok ()

/-- Exec (src/plugin.go:55-96): conditionally set up the project and init
helm, then run the action loop. -/
def ExecGo (env : Env) (p : Plugin) : List Event × Res Unit :=
  if p.project ≠ "" ∧ p.cluster ≠ "" ∧ (p.authKey ≠ "" ∨ p.keyPath ≠ "") then
    match setupProjectV1 env p with
    | (t, some e) => (t, Res.err e)
    | (t, none) =>
      match helmInitGo env with
      | (t2, Res.panicked) => (t ++ t2, Res.panicked)
      | (t2, Res.err e) => (t ++ t2, Res.err e)
      | (t2, Res.ok _) =>
        let ar := runActionsGo env.runErr p p.actions
        (t ++ t2 ++ ar.1, toRes ar.2)
  else
    let ar := runActionsGo env.runErr p p.actions
    (ar.1, toRes ar.2)

/-- main (src/main.go:13-39): fetch the helm versions, print any error, and
return unconditionally at src/main.go:20.  Everything after that return —
envconfig parsing, preparePlugin and p.Exec (src/main.go:22-38) — sits below
the unconditional return and is never executed, so it does not appear in
this definition's control flow. -/
def mainGo (env : Env) : List Event × Res Unit :=
  match fetchHelmVersionsGo env with
  | (t, Res.panicked) => (t, Res.panicked)
  | (t, Res.err e) => (t ++ [Event.print e], Res.ok ())
  | (t, Res.ok _) => (t, Res.ok ())

/-- Does the event spawn a process? -/
def isRunEv : Event → Bool
  | Event.run _ => true
  | _ => false

/-- setupAuth (src/unnamed/part_003:130-141, called from src/main.go:72):
export GOOGLE_APPLICATION_CREDENTIALS, then activate the service account. -/
def setupAuthGo (env : Env) (authFile : String) : List Event × Option String :=
  match env.setenvErr with
  | some e =>
    ([], some ("could not set GOOGLE_APPLICATION_CREDENTIALS env variable: "
      ++ e))
  | none =>
    let c := Cmd.mk "gcloud"
      ["auth", "activate-service-account", "--key-file=" ++ authFile]
    match env.runErr c with
    | some e => ([Event.run c], some ("could not authorize with glcoud: " ++ e))
    | none => ([Event.run c], none)

/-- Package derivation from the chart path's last `/`-segment
(src/main.go:42-45; the Go indexes `s[len(s)-1]`, always in range since
strings.Split yields a non-empty slice).  `env.tmpErr` in preparePluginGo
below stands for any failure of the temp-file create/write/close sequence
(src/main.go:57-67). -/
def derivePackage (p : Plugin) : Plugin :=
  if p.package = "" then
    { p with package := (goSplit p.chartPath '/').getLastD "" }
  else p

/-- Release derivation (src/main.go:46-48). -/
def deriveRelease (p : Plugin) : Plugin :=
  if p.release = "" then { p with release := p.package } else p

/-- ChartRepo derivation (src/main.go:49-51). -/
def deriveChartRepo (p : Plugin) : Plugin :=
  if p.chartRepo = "" ∧ p.bucket ≠ "" then
    { p with chartRepo := "https://" ++ p.bucket ++ ".storage.googleapis.com/" }
  else p

/-- Namespace default (src/main.go:52-54). -/
def deriveNamespace (p : Plugin) : Plugin :=
  if p.nspace = "" then { p with nspace := "default" } else p

/-- preparePlugin (src/main.go:41-78), one derivation step per Go
if-statement, applied in source order, followed by the auth-key
materialisation and the setupAuth call. -/
def preparePluginGo (env : Env) (p : Plugin) :
    List Event × Except String Plugin :=
  let p4 := deriveNamespace (deriveChartRepo (deriveRelease (derivePackage p)))
  let keyStep : Except String Plugin :=
    if p4.authKey ≠ "" then
      match env.tmpErr with
      | some e =>
        Except.error ("could not create temporary file for the auth key: " ++ e)
      | none => Except.ok { p4 with keyPath := env.tmpName }
    else Except.ok p4
  match keyStep with
  | Except.error e => ([], Except.error e)
  | Except.ok p5 =>
    if p5.keyPath ≠ "" then
      match setupAuthGo env p5.keyPath with
      | (t, some e) => (t, Except.error ("could not setup auth: " ++ e))
      | (t, none) => (t, Except.ok p5)
    else ([], Except.ok p5)

/-- Modelled from the spec: the external packaging tool invoked by the
create action writes its artifact as `<package>-<version>.tgz` (spec
glossary, "Artifact"); the create invocation itself (src/plugin.go:100-102)
passes only `--version` and the chart path and never spells the name. -/
def createOutputName (p : Plugin) : String :=
  p.package ++ "-" ++ p.chartVersion ++ ".tgz"

/-- Client/server version record decoded from the templated `helm version`
output (src/unnamed/part_003:212-218). -/
structure SemVerRec where
  version : String
deriving DecidableEq, Repr

/-- Pair of client and server versions (src/unnamed/part_003:215-218). -/
structure HelmVersions where
  client : SemVerRec
  server : SemVerRec
deriving DecidableEq, Repr

/-- Oracle environment for the src/unnamed/part_003 variant.  `unmarshal`
stands for the external `encoding/json` decoder applied to the combined
output; `att i` is the outcome of the `i`-th iteration of the tiller wait
loop (the repeated `helm version --server` run). -/
structure EnvV3 where
  runErr : Cmd → Option String
  combinedOut : Cmd → String
  unmarshal : String → Except String HelmVersions
  att : Nat → Option String

/-- Binary names of the part_003 variant (src/unnamed/part_003:45-48). -/
def gcloudBinV3 : String := "gcloud"

def helmBinV3 : String := "helm"

/-- The JSON template passed to `helm version --template`
(src/unnamed/part_003:223-226; `json.Marshal` of the helmVersions struct
cannot fail for this fixed value). -/
def versionTemplate : String :=
  "\x7b\"client\":\x7b\"version\":\"\x7b\x7b .Client.SemVer \x7d\x7d\"\x7d,\"server\":\x7b\"version\":\"\x7b\x7b .Server.SemVer \x7d\x7d\"\x7d\x7d"

/-- The templated version query command (src/unnamed/part_003:231). -/
def versionTplCmd : Cmd :=
  Cmd.mk helmBinV3 ["version", "--template", versionTemplate]

/-- fetchHelmVersions (src/unnamed/part_003:221-249): run the templated
query, wrap a run failure, decode the combined output otherwise. -/
def fetchHelmVersionsTpl (env : EnvV3) :
    List Event × Except String HelmVersions :=
  ([Event.run versionTplCmd],
    match env.runErr versionTplCmd with
    | some e => Except.error ("could not run command: " ++ e)
    | none =>
      match env.unmarshal (env.combinedOut versionTplCmd) with
      | Except.error e => Except.error ("could not parse client version: " ++ e)
      | Except.ok v => Except.ok v)

/-- Numeric value of a digit-only segment, or `none`. -/
def parseNatSeg (s : String) : Option Nat :=
  if s.length ≠ 0 ∧ s.data.all (fun c => '0' ≤ c ∧ c ≤ '9') then
    some (s.data.foldl (fun n c => n * 10 + (c.toNat - 48)) 0)
  else none

/-- Modelled from the spec: the external hashicorp go-version parser
(`version.NewVersion`, src/unnamed/part_003:258-265) reduced to dotted
numeric versions with an optional leading `v`. -/
def goVersionNew (s : String) : Option (List Nat) :=
  let t := if "v".data.isPrefixOf s.data then String.mk (s.data.drop 1) else s
  (goSplit t '.').mapM parseNatSeg

/-- Modelled from the spec: strict semantic-version comparison of parsed
segment lists (the external go-version `Compare`, missing segments count
as zero). -/
def segsCompare : List Nat → List Nat → Int
  | [], [] => 0
  | [], b => if b.all (fun x => x = 0) then 0 else -1
  | a, [] => if a.all (fun x => x = 0) then 0 else 1
  | a0 :: as', b0 :: bs' =>
    if a0 < b0 then -1
    else if b0 < a0 then 1
    else segsCompare as' bs'

/-- The repeated server check of the part_003 wait loop
(src/unnamed/part_003:288). -/
def versionServerCmd : Cmd := Cmd.mk helmBinV3 ["version", "--server"]

/-- The tiller wait loop of part_003 helmInit (src/unnamed/part_003:284-292):
sleep ten seconds, run `helm version --server`, break on the first success;
`i` indexes the attempt, the middle argument counts remaining iterations,
the last argument carries the previous attempt's error. -/
def waitTillerAux (att : Nat → Option String) :
    Nat → Nat → Option String → List Event × Option String
  | _, 0, last => ([], last)
  | i, n + 1, _ =>
    match att i with
    | none => ([Event.sleep 10, Event.run versionServerCmd], none)
    | some e =>
      let (t, r) := waitTillerAux att (i + 1) n (some e)
      (Event.sleep 10 :: Event.run versionServerCmd :: t, r)

/-- updateRetries and updateWaitTime (src/unnamed/part_003:57-58). -/
def updateRetries : Nat := 10

/-- Go `strings.Join(cmd.Args, " ")` over program name and arguments. -/
def joinArgs (c : Cmd) : String := String.intercalate " " (c.prog :: c.args)

/-- helmInit of the part_003 variant (src/unnamed/part_003:252-299): fetch
the versions (a fetch failure aborts in this variant), convert both sides
with go-version, branch on the semantic comparison, run `helm init` with
the chosen mode flag, and in upgrade mode wait for tiller. -/
def helmInitV3 (env : EnvV3) : List Event × Option String :=
  match fetchHelmVersionsTpl env with
  | (t, Except.error e) => (t, some ("could not fetch helm versions: " ++ e))
  | (t, Except.ok ver) =>
    match goVersionNew ver.client.version with
    | none => (t, some "could not convert client version to semver")
    | some cv =>
      match goVersionNew ver.server.version with
      | none => (t, some "could not convert server version to semver")
      | some sv =>
        if segsCompare cv sv = -1 then
          (t, some "helm client is out of date")
        else
          let upgradeMode := segsCompare cv sv = 1
          let opt := if segsCompare cv sv = 1 then "--upgrade"
            else "--client-only"
          let cmd := Cmd.mk helmBinV3 ["init", opt]
          match env.runErr cmd with
          | some e =>
            (t ++ [Event.run cmd],
              some ("could not run command '" ++ joinArgs cmd ++ "': " ++ e))
          | none =>
            if upgradeMode then
              let (wt, wr) := waitTillerAux env.att 0 updateRetries none
              (t ++ Event.run cmd :: wt,
                match wr with
                | some e =>
                  some ("could not wait for tiller: max retries exceeded: "
                    ++ e)
                | none => none)
            else (t ++ [Event.run cmd], none)

/-- The credential-fetch command chosen by setupProject of the part_003
variant (src/unnamed/part_003:116-120): built with `--zone` first, then
replaced by the `--region` form whenever region is non-empty. -/
def clusterCredsCmd (cluster zone region : String) : Cmd :=
  let cmd := Cmd.mk gcloudBinV3
    ["container", "clusters", "get-credentials", cluster, "--zone", zone]
  if region ≠ "" then
    Cmd.mk gcloudBinV3
      ["container", "clusters", "get-credentials", cluster,
       "--region", region]
  else cmd

/-- setupProject of the part_003 variant (src/unnamed/part_003:108-127):
set the project, then fetch cluster credentials, each failure wrapped. -/
def setupProjectV3 (env : EnvV3) (project cluster zone region : String) :
    List Event × Option String :=
  let configCmd := Cmd.mk gcloudBinV3 ["config", "set", "project", project]
  match env.runErr configCmd with
  | some e =>
    ([Event.run configCmd],
      some ("could not the configure the project with glcoud: " ++ e))
  | none =>
    let cc := clusterCredsCmd cluster zone region
    match env.runErr cc with
    | some e =>
      ([Event.run configCmd, Event.run cc],
        some ("could not configure the cluster with glcoud: " ++ e))
    | none => ([Event.run configCmd, Event.run cc], none)

/-! Concrete inputs used by the witnesses and counterexamples below. -/

/-- Environment in which every command succeeds, with empty output. -/
def noopEnv : Env where
  runErr := fun _ => none
  stdout := fun _ => ""
  stderr := fun _ => ""
  poll := fun _ => none
  tmpErr := none
  tmpName := "/tmp/auth-key.json"
  setenvErr := none

/-- A real-shaped `helm version` client line (helm v2 free-text output). -/
def lineClientEq : String :=
  "Client: &version.Version\x7bSemVer:\"v2.11.0\", GitCommit:\"aaa\", GitTreeState:\"clean\"\x7d"

/-- The matching server line at the same version. -/
def lineServerEq : String :=
  "Server: &version.Version\x7bSemVer:\"v2.11.0\", GitCommit:\"bbb\", GitTreeState:\"clean\"\x7d"

/-- Two-line output with equal client and server versions. -/
def outEqualVersions : String :=
  lineClientEq ++ "\n" ++ lineServerEq ++ "\n"

/-- Output where the client is semantically older (v2.9.0 < v2.10.0) but
lexicographically greater than the server version. -/
def outSkewVersions : String :=
  "Client: &version.Version\x7bSemVer:\"v2.9.0\", GitCommit:\"aaa\", GitTreeState:\"clean\"\x7d\nServer: &version.Version\x7bSemVer:\"v2.10.0\", GitCommit:\"bbb\", GitTreeState:\"clean\"\x7d\n"

/-- Environment returning the equal-versions output. -/
def envEqVer : Env :=
  { noopEnv with stdout := fun c => if c = helmVersionCmd then outEqualVersions else "" }

/-- Environment returning the skewed-versions output. -/
def envSkewVer : Env :=
  { noopEnv with stdout := fun c => if c = helmVersionCmd then outSkewVersions else "" }

/-- The version map parsed from `outEqualVersions`. -/
def mapEqualVersions : List (String × List (String × String)) :=
  [("client",
    [("realm", "Client"), ("semver", "v2.11.0"), ("commit", "aaa"),
     ("treestate", "clean")]),
   ("server",
    [("realm", "Server"), ("semver", "v2.11.0"), ("commit", "bbb"),
     ("treestate", "clean")])]

/-- Environment where the version query itself fails. -/
def envFetchErr : Env :=
  { noopEnv with
      runErr := fun c => if c = helmVersionCmd then some "exit status 1" else none
      stderr := fun _ => "Error: could not find tiller" }

/-- Version query fails, plain init succeeds, every poll attempt fails. -/
def envFetchErrPollErr : Env :=
  { envFetchErr with poll := fun _ => some "could not find a ready tiller pod" }

/-- Environment whose version query succeeds but prints a single line with
no trailing newline. -/
def envOneLine : Env :=
  { noopEnv with stdout := fun c => if c = helmVersionCmd then lineClientEq else "" }

/-- A pipeline configuration with actions lint, create, push. -/
def pluginLCP : Plugin :=
  { actions := ["lint", "create", "push"], chartPath := "chart/foo",
    chartVersion := "1.2.3", package := "foo", release := "foo",
    bucket := "charts" }

/-- Environment in which exactly the create command fails. -/
def envCreateFail : Env :=
  { noopEnv with
      runErr := fun c =>
        if c = createCmdGo pluginLCP then some "create failed" else none }

/-- The same configuration with an unrecognized action in the middle. -/
def pluginFrob : Plugin :=
  { pluginLCP with actions := ["lint", "frobnicate", "push"] }

/-- part_003 environment: fetch yields client v2.12.0 / server v2.11.0, the
init command succeeds, and the tiller poll fails twice before succeeding. -/
def envV3Good : EnvV3 where
  runErr := fun _ => none
  combinedOut := fun _ => ""
  unmarshal := fun _ => Except.ok ⟨⟨"v2.12.0"⟩, ⟨"v2.11.0"⟩⟩
  att := fun i => if i < 2 then some "could not find a ready tiller pod" else none

/-- part_003 environment in which every command succeeds. -/
def envV3Noop : EnvV3 where
  runErr := fun _ => none
  combinedOut := fun _ => ""
  unmarshal := fun _ => Except.ok ⟨⟨"v2.11.0"⟩, ⟨"v2.11.0"⟩⟩
  att := fun _ => none

/-- A configuration with only a chart path set. -/
def pluginChart : Plugin := { chartPath := "chart/foo" }

/-- The prepared form of `pluginChart`. -/
def qChart : Plugin :=
  { pluginChart with package := "foo", release := "foo", nspace := "default" }

/-! Helper lemmas shared by the claim theorems. -/

/-- Running the action loop on `pre ++ rest` when every action of `pre` is
recognized and its command succeeds first emits exactly `pre`'s commands and
then behaves like the loop on `rest`. -/
theorem runActionsGo_append (run : Cmd → Option String) (p : Plugin)
    (pre rest : List String)
    (hpre : ∀ b ∈ pre, ∃ c, actionCmdGo p b = some c ∧ run c = none) :
    runActionsGo run p (pre ++ rest) =
      (pre.filterMap (fun b => (actionCmdGo p b).map Event.run)
        ++ (runActionsGo run p rest).1,
       (runActionsGo run p rest).2) := by
  induction pre with
  | nil => simp
  | cons b bs ih =>
    obtain ⟨c, hc, hr⟩ := hpre b (List.mem_cons_self b bs)
    have ih' := ih (fun x hx => hpre x (List.mem_cons_of_mem b hx))
    simp [runActionsGo, hc, hr, ih']

/-- When every one of the first `n` wait-loop attempts starting at index `i`
fails, the loop performs all `n` sleep-and-check rounds and ends with the
outcome of the last attempt. -/
theorem waitTillerAux_all_fail (att : Nat → Option String) :
    ∀ n i last, (∀ j, j < n → att (i + j) ≠ none) → n ≠ 0 →
    waitTillerAux att i n last =
      ((List.replicate n [Event.sleep 10, Event.run versionServerCmd]).flatten,
        att (i + n - 1)) := by
  intro n
  induction n with
  | zero => intro i last _ h0; exact absurd rfl h0
  | succ m ih =>
    intro i last hfail _
    have h0 : att i ≠ none := by
      have := hfail 0 (Nat.succ_pos m)
      simpa using this
    obtain ⟨e, he⟩ : ∃ e, att i = some e := by
      cases h : att i with
      | none => exact absurd h h0
      | some e => exact ⟨e, rfl⟩
    cases hm : m with
    | zero =>
      subst hm
      simp [waitTillerAux, he]
    | succ m' =>
      subst hm
      have ih' := ih (i + 1) (some e)
        (fun j hj => by
          have := hfail (j + 1) (Nat.succ_lt_succ hj)
          simpa [Nat.add_assoc, Nat.add_comm 1 j] using this)
        (Nat.succ_ne_zero m')
      rw [waitTillerAux, he]
      simp only [ih', List.replicate_succ, List.flatten_cons]
      refine Prod.ext (by simp) ?_
      show att (i + 1 + (m' + 1) - 1) = att (i + (m' + 1 + 1) - 1)
      congr 1
      omega

/-- When the attempts starting at index `i` fail up to attempt `k` and
attempt `k` succeeds (`k` within the retry budget `n`), the wait loop stops
after `k + 1` sleep-and-check rounds with no error. -/
theorem waitTillerAux_first_success (att : Nat → Option String) :
    ∀ k n i last, k < n → (∀ j, j < k → att (i + j) ≠ none) →
    att (i + k) = none →
    waitTillerAux att i n last =
      ((List.replicate (k + 1)
        [Event.sleep 10, Event.run versionServerCmd]).flatten, none) := by
  intro k
  induction k with
  | zero =>
    intro n i last hkn _ hk
    obtain ⟨m, rfl⟩ : ∃ m, n = m + 1 := ⟨n - 1, by omega⟩
    rw [waitTillerAux]
    simp at hk
    rw [hk]
    simp
  | succ k' ih =>
    intro n i last hkn hfail hk
    obtain ⟨m, rfl⟩ : ∃ m, n = m + 1 := ⟨n - 1, by omega⟩
    have h0 : att i ≠ none := by
      have := hfail 0 (Nat.succ_pos k')
      simpa using this
    obtain ⟨e, he⟩ : ∃ e, att i = some e := by
      cases h : att i with
      | none => exact absurd h h0
      | some e => exact ⟨e, rfl⟩
    have ih' := ih m (i + 1) (some e) (by omega)
      (fun j hj => by
        have := hfail (j + 1) (Nat.succ_lt_succ hj)
        simpa [Nat.add_assoc, Nat.add_comm 1 j] using this)
      (by
        have : i + 1 + k' = i + (k' + 1) := by omega
        rw [this]
        exact hk)
    rw [waitTillerAux, he]
    simp only [ih', List.replicate_succ, List.flatten_cons]
    simp

/-- The trace of main is the single version query, optionally followed by a
printed error. -/
theorem mainGo_trace_cases (env : Env) :
    (mainGo env).1 = [Event.run helmVersionCmd] ∨
      ∃ e, (mainGo env).1 = [Event.run helmVersionCmd, Event.print e] := by
  unfold mainGo
  rcases h : fetchHelmVersionsGo env with ⟨t, r⟩
  have ht : t = [Event.run helmVersionCmd] := by
    have := congrArg Prod.fst h
    simpa [fetchHelmVersionsGo] using this.symm
  subst ht
  cases r with
  | panicked => simp
  | err e => right; exact ⟨e, by simp⟩
  | ok v => simp

/-- No dispatchable action command coincides with the version query. -/
theorem actionCmd_ne_versionCmd (p : Plugin) (a : String) (c : Cmd)
    (h : actionCmdGo p a = some c) : c ≠ helmVersionCmd := by
  unfold actionCmdGo at h
  split_ifs at h
  all_goals
    cases h
    simp [helmVersionCmd, lintCmdGo, createCmdGo, pushCmdGo, pullCmdGo,
      deployCmdGo, gsutilBin, helmBin]

/-- A successful preparation keeps the derived package and release fields of
the derivation stages (the later auth-key steps only touch `keyPath`). -/
theorem preparePluginGo_ok_fields (env : Env) (p q : Plugin) (t : List Event)
    (h : preparePluginGo env p = (t, Except.ok q)) :
    q.package = (derivePackage p).package ∧
    q.release = (deriveRelease (derivePackage p)).release := by
  have hcr : ∀ r : Plugin,
      (deriveNamespace (deriveChartRepo r)).package = r.package ∧
      (deriveNamespace (deriveChartRepo r)).release = r.release := by
    intro r
    unfold deriveNamespace deriveChartRepo
    split_ifs <;> simp
  have hrel : ∀ r : Plugin, (deriveRelease r).package = r.package := by
    intro r
    unfold deriveRelease
    split_ifs <;> simp
  simp only [preparePluginGo] at h
  set p4 := deriveNamespace (deriveChartRepo (deriveRelease (derivePackage p)))
    with hp4
  have main : q.package = p4.package ∧ q.release = p4.release := by
    by_cases hak : p4.authKey = ""
    · rw [if_neg (by simp [hak] : ¬p4.authKey ≠ "")] at h
      simp only [] at h
      by_cases hkp : p4.keyPath = ""
      · rw [if_neg (by simp [hkp] : ¬p4.keyPath ≠ "")] at h
        simp only [Prod.mk.injEq, Except.ok.injEq] at h
        obtain ⟨-, rfl⟩ := h
        exact ⟨rfl, rfl⟩
      · rw [if_pos (by simp [hkp] : p4.keyPath ≠ "")] at h
        rcases hsa : setupAuthGo env p4.keyPath with ⟨ts, rs⟩
        rw [hsa] at h
        cases rs with
        | some e => simp at h
        | none =>
          simp only [Prod.mk.injEq, Except.ok.injEq] at h
          obtain ⟨-, rfl⟩ := h
          exact ⟨rfl, rfl⟩
    · rw [if_pos (by simp [hak] : p4.authKey ≠ "")] at h
      cases htmp : env.tmpErr with
      | some e => rw [htmp] at h; simp at h
      | none =>
        rw [htmp] at h
        simp only [] at h
        by_cases hkp : env.tmpName = ""
        · rw [if_neg (by simp [hkp] : ¬env.tmpName ≠ "")] at h
          simp only [Prod.mk.injEq, Except.ok.injEq] at h
          obtain ⟨-, rfl⟩ := h
          exact ⟨rfl, rfl⟩
        · rw [if_pos (by simp [hkp] : env.tmpName ≠ "")] at h
          rcases hsa : setupAuthGo env env.tmpName with ⟨ts, rs⟩
          rw [hsa] at h
          cases rs with
          | some e => simp at h
          | none =>
            simp only [Prod.mk.injEq, Except.ok.injEq] at h
            obtain ⟨-, rfl⟩ := h
            exact ⟨rfl, rfl⟩
  rw [main.1, main.2, hp4]
  obtain ⟨ha, hb⟩ := hcr (deriveRelease (derivePackage p))
  rw [ha, hb, hrel]
  exact ⟨rfl, rfl⟩

/-! Claim theorems. -/

/-- C1 (amended): on a successful version fetch the plugin.go initializer
branches by lexicographic byte ordering of the raw version strings
(`strings.Compare`), not by semantic-version ordering: a lexicographically
smaller client string aborts with "helm client is out of date" and no init
command, a greater one runs `helm init --upgrade` followed by the tiller
poll, and equality runs `helm init --client-only` followed by the poll. -/
theorem helmInit_branches_by_string_order (env : Env) (t : List Event)
    (m : List (String × List (String × String)))
    (hf : fetchHelmVersionsGo env = (t, Res.ok m)) :
    (stringsCompare (semverOf m "client") (semverOf m "server") = -1 →
      helmInitGo env = (t, Res.err "helm client is out of date")) ∧
    (stringsCompare (semverOf m "client") (semverOf m "server") = 1 →
      helmInitGo env = initThenPoll env t upgradeInitCmd) ∧
    (stringsCompare (semverOf m "client") (semverOf m "server") = 0 →
      helmInitGo env = initThenPoll env t clientOnlyInitCmd) := by
  refine ⟨fun h => ?_, fun h => ?_, fun h => ?_⟩ <;>
    · rw [helmInitGo, hf]
      simp [h]

/-- Witness for C1 (amended): with equal version strings v2.11.0/v2.11.0 the
initializer takes the client-only branch. -/
theorem helmInit_branches_by_string_order_witness :
    helmInitGo envEqVer =
      initThenPoll envEqVer [Event.run helmVersionCmd] clientOnlyInitCmd :=
  (helmInit_branches_by_string_order envEqVer [Event.run helmVersionCmd]
    mapEqualVersions (by decide)).2.2 (by decide)

/-- Counterexample for C1 as stated: with client v2.9.0 and server v2.10.0
the client is strictly older under semantic-version ordering, yet the
plugin.go initializer does not fail with "helm client is out of date" — it
runs `helm init --upgrade` (strings.Compare puts "v2.9.0" above
"v2.10.0"). -/
theorem helmInit_semver_order_counterexample :
    goVersionNew "v2.9.0" = some [2, 9, 0] ∧
    goVersionNew "v2.10.0" = some [2, 10, 0] ∧
    segsCompare [2, 9, 0] [2, 10, 0] = -1 ∧
    (fetchHelmVersionsGo envSkewVer).2 =
      Res.ok [("client",
        [("realm", "Client"), ("semver", "v2.9.0"), ("commit", "aaa"),
         ("treestate", "clean")]),
       ("server",
        [("realm", "Server"), ("semver", "v2.10.0"), ("commit", "bbb"),
         ("treestate", "clean")])] ∧
    (helmInitGo envSkewVer).2 ≠ Res.err "helm client is out of date" ∧
    Event.run upgradeInitCmd ∈ (helmInitGo envSkewVer).1 := by
  decide

/-- C2: the entry point fetches the versions, prints any error, and returns
unconditionally; the only process main ever spawns is the version query, so
no configured action command can appear in its trace — the pipeline behind
the unconditional return is unreachable. -/
theorem main_runs_no_pipeline_action (env : Env) :
    ((mainGo env).1.filter isRunEv = [Event.run helmVersionCmd]) ∧
    (∀ p a c, actionCmdGo p a = some c → Event.run c ∉ (mainGo env).1) := by
  constructor
  · rcases mainGo_trace_cases env with h | ⟨e, h⟩ <;> rw [h] <;> simp [isRunEv]
  · intro p a c hc hm
    have hne := actionCmd_ne_versionCmd p a c hc
    rcases mainGo_trace_cases env with h | ⟨e, h⟩ <;>
      rw [h] at hm <;> simp at hm <;> exact hne hm

/-- Witness for C2: in the all-success environment, main spawns only the
version query and in particular never the lint command of a configured
pipeline. -/
theorem main_runs_no_pipeline_action_witness :
    (mainGo noopEnv).1.filter isRunEv = [Event.run helmVersionCmd] ∧
      Event.run (lintCmdGo pluginLCP) ∉ (mainGo noopEnv).1 :=
  ⟨(main_runs_no_pipeline_action noopEnv).1,
   (main_runs_no_pipeline_action noopEnv).2 pluginLCP "lint"
     (lintCmdGo pluginLCP) (by decide)⟩

/-- C3: when the actions before position k are recognized and succeed and
the handler at position k fails, Exec stops there: the trace is exactly the
commands of the earlier actions plus the failing command (nothing is undone
and nothing after k runs), and the returned error is exactly the failing
handler's error. -/
theorem exec_aborts_on_first_handler_failure (env : Env) (p : Plugin)
    (pre post : List String) (a : String) (ca : Cmd) (e : String)
    (hskip : p.project = "")
    (hacts : p.actions = pre ++ a :: post)
    (hpre : ∀ b ∈ pre, ∃ c, actionCmdGo p b = some c ∧ env.runErr c = none)
    (hc : actionCmdGo p a = some ca)
    (he : env.runErr ca = some e) :
    ExecGo env p =
      (pre.filterMap (fun b => (actionCmdGo p b).map Event.run)
        ++ [Event.run ca], Res.err e) := by
  rw [ExecGo]
  simp only [hskip]
  rw [hacts, runActionsGo_append env.runErr p pre (a :: post) hpre]
  simp [runActionsGo, hc, he, toRes]

/-- Witness for C3: actions [lint, create, push] with a failing create run
lint then create and stop with create's error; push never runs. -/
theorem exec_aborts_on_first_handler_failure_witness :
    ExecGo envCreateFail pluginLCP =
      ((["lint"].filterMap fun b => (actionCmdGo pluginLCP b).map Event.run)
        ++ [Event.run (createCmdGo pluginLCP)], Res.err "create failed") :=
  exec_aborts_on_first_handler_failure envCreateFail pluginLCP ["lint"]
    ["push"] "create" (createCmdGo pluginLCP) "create failed" rfl rfl
    (by
      intro b hb
      rw [List.mem_singleton] at hb
      subst hb
      exact ⟨lintCmdGo pluginLCP, by decide, by decide⟩)
    (by decide) (by decide)

/-- C4: an action name outside the recognized set aborts the pipeline at its
position with the "unknown action" error; only the commands of the earlier,
successful actions are in the trace. -/
theorem exec_aborts_on_unknown_action (env : Env) (p : Plugin)
    (pre post : List String) (x : String)
    (hskip : p.project = "")
    (hacts : p.actions = pre ++ x :: post)
    (hpre : ∀ b ∈ pre, ∃ c, actionCmdGo p b = some c ∧ env.runErr c = none)
    (hx : x ∉ [lintPkg, createPkg, pushPkg, pullPkg, deployPkg]) :
    ExecGo env p =
      (pre.filterMap (fun b => (actionCmdGo p b).map Event.run),
        Res.err "unknown action") := by
  have hnone : actionCmdGo p x = none := by
    simp only [List.mem_cons, not_or] at hx
    obtain ⟨h1, h2, h3, h4, h5, -⟩ := hx
    simp [actionCmdGo, h1, h2, h3, h4, h5]
  rw [ExecGo]
  simp only [hskip]
  rw [hacts, runActionsGo_append env.runErr p pre (x :: post) hpre]
  simp [runActionsGo, hnone, toRes]

/-- Witness for C4: "frobnicate" in the middle of [lint, frobnicate, push]
stops the run after lint with "unknown action"; push never runs. -/
theorem exec_aborts_on_unknown_action_witness :
    ExecGo noopEnv pluginFrob =
      ((["lint"].filterMap fun b => (actionCmdGo pluginFrob b).map Event.run),
        Res.err "unknown action") :=
  exec_aborts_on_unknown_action noopEnv pluginFrob ["lint"] ["push"]
    "frobnicate" rfl rfl
    (by
      intro b hb
      rw [List.mem_singleton] at hb
      subst hb
      exact ⟨lintCmdGo pluginFrob, by decide, by decide⟩)
    (by decide)

/-- C5 (amended): when the version query fails, the plugin.go initializer
does not abort with the query's error: it falls through to a plain
`helm init` with no mode flag; a failure of that init command is reported
as the error, and when the init command succeeds the ten-attempt tiller
poll still runs and its final failure, if any, is reported too. -/
theorem helmInit_fetch_failure_soft_fallback (env : Env) (t : List Event)
    (e : String)
    (hf : fetchHelmVersionsGo env = (t, Res.err e)) :
    helmInitGo env = initThenPoll env t plainInitCmd ∧
    initThenPoll env t plainInitCmd =
      (match env.runErr plainInitCmd with
       | some ie => (t ++ [Event.run plainInitCmd], Res.err ie)
       | none =>
         (t ++ Event.run plainInitCmd :: (pollTillerGo env 10).1,
          match (pollTillerGo env 10).2 with
          | some pe => Res.err pe
          | none => Res.ok ())) := by
  refine ⟨by rw [helmInitGo, hf], ?_⟩
  rw [initThenPoll]

/-- Witness for C5 (amended): a failing version query with a succeeding
plain init and a succeeding first poll finishes with no error. -/
theorem helmInit_fetch_failure_soft_fallback_witness :
    helmInitGo envFetchErr =
      initThenPoll envFetchErr [Event.run helmVersionCmd] plainInitCmd ∧
    initThenPoll envFetchErr [Event.run helmVersionCmd] plainInitCmd =
      (match envFetchErr.runErr plainInitCmd with
       | some ie =>
         ([Event.run helmVersionCmd] ++ [Event.run plainInitCmd], Res.err ie)
       | none =>
         ([Event.run helmVersionCmd] ++ Event.run plainInitCmd ::
            (pollTillerGo envFetchErr 10).1,
          match (pollTillerGo envFetchErr 10).2 with
          | some pe => Res.err pe
          | none => Res.ok ())) :=
  helmInit_fetch_failure_soft_fallback envFetchErr [Event.run helmVersionCmd]
    "Error: could not find tiller" (by decide)

/-- Counterexample for C5 as stated: in `envFetchErrPollErr` the version
query fails, the plain init command succeeds, yet helmInit still reports an
error — the tiller poll's failure — so the reported error is not a failure
of the initialization command itself. -/
theorem helmInit_poll_error_reported_counterexample :
    (fetchHelmVersionsGo envFetchErrPollErr).2 =
      Res.err "Error: could not find tiller" ∧
    envFetchErrPollErr.runErr plainInitCmd = none ∧
    (helmInitGo envFetchErrPollErr).2 =
      Res.err "could not find a ready tiller pod" := by
  decide

/-- C6: after a successful upgrade-mode init, the part_003 initializer polls
the server with `helm version --server` at most ten times, sleeping a fixed
ten seconds before every attempt and stopping at the first success; if all
ten attempts fail it reports the exceeded-retries error carrying the last
attempt's failure.  The two conjuncts cover the two exhaustive cases: every
attempt fails, or some attempt k < 10 is the first success. -/
theorem helmInitV3_upgrade_polls_ten_times (env : EnvV3) (t : List Event)
    (ver : HelmVersions) (cv sv : List Nat)
    (hf : fetchHelmVersionsTpl env = (t, Except.ok ver))
    (hcv : goVersionNew ver.client.version = some cv)
    (hsv : goVersionNew ver.server.version = some sv)
    (hgt : segsCompare cv sv = 1)
    (hinit : env.runErr (Cmd.mk helmBinV3 ["init", "--upgrade"]) = none) :
    (∀ f : Nat → String, (∀ i, i < updateRetries → env.att i = some (f i)) →
      helmInitV3 env =
        (t ++ Event.run (Cmd.mk helmBinV3 ["init", "--upgrade"]) ::
          (List.replicate updateRetries
            [Event.sleep 10, Event.run versionServerCmd]).flatten,
          some ("could not wait for tiller: max retries exceeded: " ++ f 9))) ∧
    (∀ k, k < updateRetries → (∀ j, j < k → env.att j ≠ none) →
      env.att k = none →
      helmInitV3 env =
        (t ++ Event.run (Cmd.mk helmBinV3 ["init", "--upgrade"]) ::
          (List.replicate (k + 1)
            [Event.sleep 10, Event.run versionServerCmd]).flatten,
          none)) := by
  have hred : helmInitV3 env =
      (t ++ Event.run (Cmd.mk helmBinV3 ["init", "--upgrade"]) ::
        (waitTillerAux env.att 0 updateRetries none).1,
        match (waitTillerAux env.att 0 updateRetries none).2 with
        | some e =>
          some ("could not wait for tiller: max retries exceeded: " ++ e)
        | none => none) := by
    rw [helmInitV3, hf]
    simp only [hcv, hsv, hgt]
    norm_num
    rw [hinit]
  constructor
  · intro f hall
    have hw := waitTillerAux_all_fail env.att updateRetries 0 none
      (fun j hj => by rw [Nat.zero_add, hall j hj]; simp) (by decide)
    rw [hred, hw]
    have h9 : env.att (0 + updateRetries - 1) = some (f 9) :=
      hall 9 (by decide)
    rw [h9]
  · intro k hk hfail hsucc
    have hw := waitTillerAux_first_success env.att k updateRetries 0 none hk
      (fun j hj => by rw [Nat.zero_add]; exact hfail j hj)
      (by rw [Nat.zero_add]; exact hsucc)
    rw [hred, hw]

/-- Witness for C6: client v2.12.0 over server v2.11.0 triggers the upgrade
path; the poll fails twice and succeeds on the third attempt, giving three
sleep-and-check rounds and no error. -/
theorem helmInitV3_upgrade_polls_ten_times_witness :
    helmInitV3 envV3Good =
      ([Event.run versionTplCmd] ++
        Event.run (Cmd.mk helmBinV3 ["init", "--upgrade"]) ::
        (List.replicate (2 + 1)
          [Event.sleep 10, Event.run versionServerCmd]).flatten,
        none) :=
  (helmInitV3_upgrade_polls_ten_times envV3Good [Event.run versionTplCmd]
    ⟨⟨"v2.12.0"⟩, ⟨"v2.11.0"⟩⟩ [2, 12, 0] [2, 11, 0] (by rfl) (by decide)
    (by decide) (by decide) (by decide)).2 2 (by decide) (by decide)
    (by decide)

/-- C7: in the part_003 cluster-session setup, a non-empty region makes the
credential-fetch command use `--region` with the region value (the
`--zone` form built first is replaced), and the `--zone` form is used
exactly when the region is empty; setupProject runs the project
configuration first and then that credential command. -/
theorem setupProjectV3_region_overrides_zone (env : EnvV3)
    (project cluster zone region : String) :
    (region ≠ "" →
      clusterCredsCmd cluster zone region =
        Cmd.mk gcloudBinV3
          ["container", "clusters", "get-credentials", cluster,
           "--region", region]) ∧
    (region = "" →
      clusterCredsCmd cluster zone region =
        Cmd.mk gcloudBinV3
          ["container", "clusters", "get-credentials", cluster,
           "--zone", zone]) ∧
    (env.runErr (Cmd.mk gcloudBinV3 ["config", "set", "project", project])
        = none →
      setupProjectV3 env project cluster zone region =
        ([Event.run (Cmd.mk gcloudBinV3 ["config", "set", "project", project]),
          Event.run (clusterCredsCmd cluster zone region)],
          match env.runErr (clusterCredsCmd cluster zone region) with
          | some e =>
            some ("could not configure the cluster with glcoud: " ++ e)
          | none => none)) := by
  refine ⟨fun h => ?_, fun h => ?_, fun h => ?_⟩
  · rw [clusterCredsCmd]
    simp [h]
  · rw [clusterCredsCmd]
    simp [h]
  · rw [setupProjectV3, h]
    rcases hc : env.runErr (clusterCredsCmd cluster zone region) with _ | e <;>
      simp [hc]

/-- Witness for C7: with Zone "z1" and Region "r1" both set, the credential
command uses `--region r1` and setupProject runs it after the project
configuration. -/
theorem setupProjectV3_region_overrides_zone_witness :
    clusterCredsCmd "prod-cluster" "z1" "r1" =
      Cmd.mk gcloudBinV3
        ["container", "clusters", "get-credentials", "prod-cluster",
         "--region", "r1"] ∧
    setupProjectV3 envV3Noop "proj" "prod-cluster" "z1" "r1" =
      ([Event.run (Cmd.mk gcloudBinV3 ["config", "set", "project", "proj"]),
        Event.run (clusterCredsCmd "prod-cluster" "z1" "r1")],
        match envV3Noop.runErr (clusterCredsCmd "prod-cluster" "z1" "r1") with
        | some e =>
          some ("could not configure the cluster with glcoud: " ++ e)
        | none => none) :=
  ⟨(setupProjectV3_region_overrides_zone envV3Noop "proj" "prod-cluster"
      "z1" "r1").1 (by decide),
   (setupProjectV3_region_overrides_zone envV3Noop "proj" "prod-cluster"
      "z1" "r1").2.2 (by decide)⟩

/-- C8: a successful preparation derives Package as the final `/`-segment of
ChartPath exactly when Package was unset (an explicit Package is kept), and
derives Release as the resulting Package exactly when Release was unset (an
explicit Release is kept); nothing later in preparation changes them. -/
theorem preparePlugin_package_release_defaults (env : Env) (p q : Plugin)
    (t : List Event)
    (h : preparePluginGo env p = (t, Except.ok q)) :
    (p.package = "" → q.package = (goSplit p.chartPath '/').getLastD "") ∧
    (p.package ≠ "" → q.package = p.package) ∧
    (p.release = "" → q.release = q.package) ∧
    (p.release ≠ "" → q.release = p.release) := by
  obtain ⟨hp, hr⟩ := preparePluginGo_ok_fields env p q t h
  have hdr : (derivePackage p).release = p.release := by
    unfold derivePackage
    split_ifs <;> simp
  refine ⟨fun h0 => ?_, fun h0 => ?_, fun h0 => ?_, fun h0 => ?_⟩
  · rw [hp]
    unfold derivePackage
    rw [if_pos h0]
  · rw [hp]
    unfold derivePackage
    rw [if_neg h0]
  · rw [hr, hp]
    unfold deriveRelease
    rw [if_pos (show (derivePackage p).release = "" by rw [hdr]; exact h0)]
  · rw [hr]
    unfold deriveRelease
    rw [if_neg (show ¬(derivePackage p).release = "" by rw [hdr]; exact h0)]
    exact hdr

/-- Witness for C8: chart path "chart/foo" with Package and Release unset
prepares to Package "foo" and Release equal to that Package. -/
theorem preparePlugin_package_release_defaults_witness :
    qChart.package = (goSplit pluginChart.chartPath '/').getLastD "" ∧
    qChart.release = qChart.package :=
  ⟨(preparePlugin_package_release_defaults noopEnv pluginChart qChart []
      (by rfl)).1 (by decide),
   (preparePlugin_package_release_defaults noopEnv pluginChart qChart []
      (by rfl)).2.2.1 (by decide)⟩

/-- C9: push's source, pull's destination and the chart argument of the
deploy command string all equal the artifact name
`<package>-<version>.tgz`; pull's remote source is the same name under the
bucket prefix, and the spec-modelled output name of the external packaging
tool coincides as well.  In particular push and pull agree on the local
file name. -/
theorem artifact_name_agreement (p : Plugin) :
    pushSource p = artifactName p ∧
    pullDest p = artifactName p ∧
    pushSource p = pullDest p ∧
    pullSource p = "gs://" ++ p.bucket ++ "/" ++ artifactName p ∧
    createOutputName p = artifactName p ∧
    deployHelmCmdStr p =
      (helmBin ++ " upgrade " ++ p.release ++ " ") ++ artifactName p ++
        (" --set " ++
          String.intercalate "," (p.values ++ ["namespace=" ++ p.nspace])
          ++ " " ++ (if p.recreate then "--recreate-pods" else "")
          ++ " --install --namespace " ++ p.nspace
          ++ (if p.wait then " --wait --timeout " ++ toString p.waitTimeout
              else "")) := by
  refine ⟨by rfl, by rfl, by rfl, ?_, by rfl, ?_⟩
  · apply String.ext
    simp [pullSource, artifactName, String.data_append, List.append_assoc]
  · apply String.ext
    cases hw : p.wait <;> cases hr : p.recreate <;>
      simp [deployHelmCmdStr, artifactName, hw, hr, String.data_append,
        String.append_empty, List.append_assoc]

/-- C10 (amended): the parser of the captured `helm version` output looks
only at the first two newline-separated lines whenever there are at least
two (everything beyond is ignored), and a line with no regexp match yields
the "emtpy resultset" error; but when the split yields fewer than two lines
the `lines[:2]` reslice panics (out-of-range), it does not return. -/
theorem fetch_parser_first_two_lines (out : String) :
    (∀ l0 l1 rest, goSplit out '\n' = l0 :: l1 :: rest →
      parseHelmVersionOutput out = scanLines [l0, l1] []) ∧
    (∀ l, goSplit out '\n' = [l] →
      parseHelmVersionOutput out = Res.panicked) ∧
    (∀ line : String, findAllVersions line.data = [] →
      scanNamedVersions line = Except.error "emtpy resultset") := by
  refine ⟨fun l0 l1 rest h => ?_, fun l h => ?_, fun line h => ?_⟩
  · rw [parseHelmVersionOutput, h]
    simp [List.take]
  · rw [parseHelmVersionOutput, h]
    simp
  · rw [scanNamedVersions, h]
    simp

/-- Witness for C10 (amended): a single line with no newline panics, and on
a well-formed two-line output the parse is the scan of exactly the first
two lines (the trailing empty third line is ignored). -/
theorem fetch_parser_first_two_lines_witness :
    parseHelmVersionOutput "Client: a" = Res.panicked ∧
    parseHelmVersionOutput outEqualVersions =
      scanLines [lineClientEq, lineServerEq] [] :=
  ⟨(fetch_parser_first_two_lines "Client: a").2.1 "Client: a" (by decide),
   (fetch_parser_first_two_lines outEqualVersions).1 lineClientEq
     lineServerEq [""] (by decide)⟩

/-- Counterexample for C10 as stated: a successful version query whose
captured output has a single line (no newline) drives fetchHelmVersions
into the out-of-range reslice — the Go code panics instead of returning. -/
theorem fetch_parser_short_output_panics :
    envOneLine.runErr helmVersionCmd = none ∧
    (goSplit (envOneLine.stdout helmVersionCmd) '\n').length = 1 ∧
    (fetchHelmVersionsGo envOneLine).2 = Res.panicked := by
  decide
